import Mathlib

/-!
Shallow embedding of `src/task-1.py`, a command-line contact manager
(address book with validated fields and an upcoming-birthday query).

Python strings are modelled as Lean `String` / `List Char` (both are
sequences of Unicode code points, and the Python `len` counts code points).
Raised exceptions are modelled with `Option`/`Except`; `None` fields with
`Option`.  Mutation is modelled by explicit state passing: each operation
returns the updated structure together with the message it prints.
-/

set_option autoImplicit false

namespace Task1

/-! ### Python character predicates

`str.isdigit` is true for Unicode digit characters, not only ASCII `0-9`:
any character of category Nd (e.g. the Arabic-Indic digits U+0660–U+0669)
counts.  The model covers the ASCII block and the Arabic-Indic block; the
further Unicode digit blocks behave the same way and are omitted.  Code
points 48–57 are `0`–`9`; 1632–1641 are the Arabic-Indic digits. -/

def pyIsDigitChar (c : Char) : Bool :=
  (48 ≤ c.toNat && c.toNat ≤ 57) || (1632 ≤ c.toNat && c.toNat ≤ 1641)

/-- Python whitespace for `str.split()` / `str.strip()`: space (code point 32)
and the control characters 9-13 (tab, newline, vertical tab, form feed,
carriage return). -/
def pyIsSpace (c : Char) : Bool :=
  c.toNat == 32 || (9 ≤ c.toNat && c.toNat ≤ 13)

/-- Model of `value.isdigit()` on a whole string: nonempty and all characters digits. -/
def pyIsDigitString (s : String) : Bool :=
  !s.toList.isEmpty && s.toList.all pyIsDigitChar

/-- Model of `int()` applied to a single digit character. -/
def pyDigitVal (c : Char) : Nat :=
  if c.toNat ≤ 57 then c.toNat - 48 else c.toNat - 1632

/-- Model of `int()` applied to a run of digit characters. -/
def pyParseNat (l : List Char) : Nat :=
  l.foldl (fun n c => 10 * n + pyDigitVal c) 0

/-! ### Field validation

`Phone.__init__` raises unless `value.isdigit() and len(value) == 10`;
`Name.__init__` raises unless `value.strip()` is nonempty. -/

/-- Predicate: `Phone.__init__` succeeds exactly on these strings (task-1.py lines 21-25). -/
def phoneOk (s : String) : Bool :=
  pyIsDigitString s && s.toList.length == 10

/-- Predicate: `Name.__init__` succeeds exactly on these strings (task-1.py lines 15-19):
`value.strip()` is empty exactly when every character is whitespace. -/
def nameOk (s : String) : Bool :=
  !(s.toList.all pyIsSpace)

def invalidPhoneMsg : String :=
  "Invalid phone number. Please provide a 10-digit phone number."

def invalidDateMsg : String :=
  "Invalid date format. Please use DD.MM.YYYY."

/-! ### `datetime.strptime` with format `"%d.%m.%Y"`

CPython compiles the format to the regex
`(3[01]|[12]\d|0[1-9]|[1-9])\.(1[0-2]|0[1-9]|[1-9])\.(\d\d\d\d)` and
requires it to consume the whole string; `\d` matches Unicode digits.  The
matched groups are fed to `int()` and then to the `date` constructor, which
raises unless `1 <= year` and `day` is at most the length of the month. -/

/-- The `%d` pattern `3[01]|[12]\d|0[1-9]|[1-9]` on one dot-separated token.
Code points: 48 `0`, 49 `1`, 50 `2`, 51 `3`, 57 `9`. -/
def dayOk (l : List Char) : Bool :=
  match l with
  | [c] => 49 ≤ c.toNat && c.toNat ≤ 57
  | [c1, c2] =>
      (c1.toNat == 51 && (c2.toNat == 48 || c2.toNat == 49)) ||
      ((c1.toNat == 49 || c1.toNat == 50) && pyIsDigitChar c2) ||
      (c1.toNat == 48 && 49 ≤ c2.toNat && c2.toNat ≤ 57)
  | _ => false

/-- The `%m` pattern `1[0-2]|0[1-9]|[1-9]` on one dot-separated token. -/
def monthOk (l : List Char) : Bool :=
  match l with
  | [c] => 49 ≤ c.toNat && c.toNat ≤ 57
  | [c1, c2] =>
      (c1.toNat == 49 && 48 ≤ c2.toNat && c2.toNat ≤ 50) ||
      (c1.toNat == 48 && 49 ≤ c2.toNat && c2.toNat ≤ 57)
  | _ => false

/-- The `%Y` pattern `\d\d\d\d`. -/
def yearOk (l : List Char) : Bool :=
  l.length == 4 && l.all pyIsDigitChar

/-- Model of `str.split` with a dot separator: split on every dot, keeping
empty parts.  Helper with the current (reversed) token as accumulator; code
point 46 is the dot. -/
def splitDotsGo (acc : List Char) : List Char → List (List Char)
  | [] => [acc.reverse]
  | c :: cs =>
      if c.toNat == 46 then acc.reverse :: splitDotsGo [] cs
      else splitDotsGo (c :: acc) cs

def pySplitDots (l : List Char) : List (List Char) :=
  splitDotsGo [] l

/-- Gregorian leap year, as `calendar.isleap` / `datetime` use it. -/
def isLeap (y : Nat) : Bool :=
  (y % 4 == 0 && y % 100 != 0) || y % 400 == 0

/-- Days in the months before month `m` of a non-leap year. -/
def cumDays (m : Nat) : Nat :=
  match m with
  | 1 => 0 | 2 => 31 | 3 => 59 | 4 => 90 | 5 => 120 | 6 => 151 | 7 => 181
  | 8 => 212 | 9 => 243 | 10 => 273 | 11 => 304 | 12 => 334 | _ => 0

def daysBeforeMonth (y m : Nat) : Nat :=
  cumDays m + (if 2 < m && isLeap y then 1 else 0)

def daysInMonth (y m : Nat) : Nat :=
  if m == 2 then (if isLeap y then 29 else 28)
  else if m == 4 || m == 6 || m == 9 || m == 11 then 30
  else 31

/-- Model of `datetime.strptime(s, "%d.%m.%Y")`: `some (day, month, year)` on success,
`none` when a `ValueError` is raised. -/
def pyStrptimeDMY (s : String) : Option (Nat × Nat × Nat) :=
  match pySplitDots s.toList with
  | [ds, ms, ys] =>
      if dayOk ds && monthOk ms && yearOk ys then
        let d := pyParseNat ds
        let m := pyParseNat ms
        let y := pyParseNat ys
        if 1 ≤ y && d ≤ daysInMonth y m then some (d, m, y) else none
      else none
  | _ => none

/-- Predicate: `Birthday.__init__` succeeds exactly on these strings (task-1.py lines 27-33). -/
def birthdayOk (s : String) : Bool :=
  (pyStrptimeDMY s).isSome

/-! ### Dates, ordinals and weekdays

`datetime.date` values, with the proleptic-Gregorian ordinal of
`date.toordinal()` (0001-01-01 has ordinal 1).  `date.weekday()` is
0 for Monday through 6 for Sunday, and ordinal 1 is a Monday, so
`weekday = (ordinal + 6) % 7`; `isoweekday()` is `weekday() + 1`. -/

structure PyDate where
  year : Nat
  month : Nat
  day : Nat
  deriving DecidableEq, Repr

def pyToOrdinal (d : PyDate) : Nat :=
  365 * (d.year - 1) + (d.year - 1) / 4 - (d.year - 1) / 100 + (d.year - 1) / 400
    + daysBeforeMonth d.year d.month + d.day

/-- Python `date.weekday()`: 0 = Monday, ..., 6 = Sunday. -/
def pyWeekday (d : PyDate) : Nat :=
  (pyToOrdinal d + 6) % 7

/-- Python `date.isoweekday()`: 1 = Monday, ..., 7 = Sunday. -/
def isoweekday (d : PyDate) : Nat :=
  pyWeekday d + 1

/-! ### Records and the address book

A `Record` owns a name, a list of phone strings (each one was validated by
`Phone.__init__` when appended) and an optional birthday string.  The
`AddressBook` is a `UserDict`; a Python `dict` keeps insertion order and
assignment to an existing key keeps its position, so it is modelled as an
association list with dict-faithful update. -/

structure Record where
  rname : String
  phones : List String
  birthday : Option String
  deriving DecidableEq, Repr

abbrev Book := List (String × Record)

/-- Model of `AddressBook.find` (task-1.py lines 75-76): `self.data.get(name)`. -/
def find (book : Book) (name : String) : Option Record :=
  book.lookup name

/-- Model of `AddressBook.add_record` (lines 72-73): `self.data[record.name.value] = record`.
Dict assignment overwrites in place when the key exists, else appends. -/
def add_record (book : Book) (r : Record) : Book :=
  if (book.lookup r.rname).isSome then
    book.map (fun p => if p.1 = r.rname then (p.1, r) else p)
  else book ++ [(r.rname, r)]

/-- Model of `Record.edit_phone` (lines 50-58) on the phone list of the
record: validate the
new number exactly as `Phone` does, then rewrite the first entry equal to
`old_phone_number` in place; raise `"Phone number not found."` if none matches. -/
def replaceFirst (old new : String) : List String → Option (List String)
  | [] => none
  | p :: ps => if p = old then some (new :: ps) else (replaceFirst old new ps).map (p :: ·)

def edit_phone (phones : List String) (old new : String) : Except String (List String) :=
  if !(pyIsDigitString new && new.toList.length == 10) then .error invalidPhoneMsg
  else
    match replaceFirst old new phones with
    | some l => .ok l
    | none => .error "Phone number not found."

/-- Message helper: code point 39 is the apostrophe that the two f-strings of
`delete_contact` place around the name. -/
def quo : String :=
  String.singleton (Char.ofNat 39)

def deletedMsg (name : String) : String :=
  "Contact " ++ quo ++ name ++ quo ++ " deleted."

def notFoundMsg (name : String) : String :=
  "Contact " ++ quo ++ name ++ quo ++ " not found."

/-- Model of `AddressBook.delete_contact` (lines 114-119), returning the new book and
the printed line. -/
def delete_contact (book : Book) (name : String) : Book × String :=
  if (book.lookup name).isSome then
    (book.filter (fun p => !(p.1 == name)), deletedMsg name)
  else (book, notFoundMsg name)

/-! ### The upcoming-birthday query (task-1.py lines 82-97)

For each record with a birthday the code splits the stored string on dots,
builds an f-string joining the reference year, the second component and the
first component with dashes, and reparses it with the format string
`"%Y-%m-%d"` (so `%Y` needs the year to print as exactly four digits, then
the `%m`/`%d` patterns apply to the stored month/day pieces, and the `date`
constructor checks the day against the month length — raising `ValueError`
for 29 February in a non-leap reference year).  `datetime.today()` is
modelled as an explicit `tdate` parameter; a raised exception as `none`. -/

def candidateOfBirthday (y : Nat) (b : String) : Option PyDate :=
  match pySplitDots b.toList with
  | d0 :: m0 :: _ =>
      if (1000 ≤ y && y ≤ 9999) && monthOk m0 && dayOk d0 then
        let m := pyParseNat m0
        let d := pyParseNat d0
        if d ≤ daysInMonth y m then some ⟨y, m, d⟩ else none
      else none
  | _ => none

/-- The filter on line 93:
`0 <= days_between < 7 and (week_day < 6 or
 (bdate + timedelta(days=(1 if week_day == 6 else 2))).weekday() == 0)`.
Adding a `timedelta` of `k` days shifts the ordinal by `k`. -/
def qualifies (tdate bdate : PyDate) : Bool :=
  let days_between : Int := (pyToOrdinal bdate : Int) - (pyToOrdinal tdate : Int)
  let week_day := isoweekday bdate
  (decide (0 ≤ days_between) && decide (days_between < 7)) &&
    (decide (week_day < 6) ||
      (pyToOrdinal bdate + (if week_day == 6 then 1 else 2) + 6) % 7 == 0)

def monthName (m : Nat) : String :=
  match m with
  | 1 => "January" | 2 => "February" | 3 => "March" | 4 => "April"
  | 5 => "May" | 6 => "June" | 7 => "July" | 8 => "August"
  | 9 => "September" | 10 => "October" | 11 => "November" | 12 => "December"
  | _ => ""

/-- Line 94-95: `bdate.strftime("%d %B").replace(" 0", " ")` prepended with the
name.  `%d` is the zero-padded day and `%B` the English month name; the
`replace` can never fire on such a string (the day starts it, so no space
precedes its zero, and no month name contains `" 0"`), so it is the identity. -/
def entryString (name : String) (bd : PyDate) : String :=
  name ++ " " ++ (if bd.day < 10 then "0" ++ Nat.repr bd.day else Nat.repr bd.day)
    ++ " " ++ monthName bd.month

/-- Model of `AddressBook.get_upcoming_birthdays` with `datetime.today().date()` made
explicit; `none` models the un-caught `ValueError` escaping the method. -/
def get_upcoming_birthdays (tdate : PyDate) : Book → Option (List String)
  | [] => some []
  | (_, r) :: rest =>
      match r.birthday with
      | none => get_upcoming_birthdays tdate rest
      | some b =>
          match candidateOfBirthday tdate.year b with
          | none => none
          | some bd =>
              if qualifies tdate bd then
                (get_upcoming_birthdays tdate rest).map (fun l => entryString r.rname bd :: l)
              else get_upcoming_birthdays tdate rest

/-! ### Command handlers (task-1.py `main`)

Each handler is modelled as a function from the current book and the
argument tokens to the new book and the printed line. -/

/-- The `add` branch (lines 135-150).  `Record(name)` validates the name
first; on success the record is inserted into the book *before*
`record.add_phone(phone)` runs, and the `except` clause only prints the
error, so a record with an empty phone list survives a failed phone
validation.  `add_phone` mutates the record in place, modelled by updating
it under its key. -/
def addCmd (book : Book) (name phone : String) : Book × String :=
  match find book name with
  | some _ => (book, "Contact with this name already exists.")
  | none =>
      if !(nameOk name) then (book, "Name cannot be empty.")
      else
        let book1 := add_record book ⟨name, [], none⟩
        if phoneOk phone then
          (book1.map (fun p => if p.1 = name then (p.1, ⟨name, [phone], none⟩) else p),
           "Contact added.")
        else (book1, invalidPhoneMsg)

/-- The `add-birthday` branch (lines 178-191): find the record, then
`record.add_birthday(birthday)` validates and overwrites in place. -/
def add_birthdayCmd (book : Book) (name birthday : String) : Book × String :=
  match find book name with
  | none => (book, "Contact not found.")
  | some r =>
      if birthdayOk birthday then
        (book.map (fun p => if p.1 = name then (p.1, { r with birthday := some birthday }) else p),
         "Birthday added.")
      else (book, invalidDateMsg)

/-! ### Tokenization of an input line (task-1.py lines 125-126)

`input(...).split()` splits on runs of whitespace and drops empty tokens,
then `user_input[0]` raises `IndexError` when the token list is empty —
which happens exactly on empty or whitespace-only lines. -/

/-- Helper for `str.split()`: `acc` is the current (reversed) token. -/
def splitWsGo (acc : List Char) : List Char → List (List Char)
  | [] => if acc.isEmpty then [] else [acc.reverse]
  | c :: cs =>
      if pyIsSpace c then
        if acc.isEmpty then splitWsGo [] cs
        else acc.reverse :: splitWsGo [] cs
      else splitWsGo (c :: acc) cs

def pySplitWs (line : String) : List String :=
  (splitWsGo [] line.toList).map (fun w => String.mk w)

/-- Line 125-126, `user_input = input(...).split()` and the unpacking of
`user_input[0]` and `user_input[1:]`:
`none` models the `IndexError` that crashes the loop. -/
def commandStep (line : String) : Option (String × List String) :=
  match pySplitWs line with
  | [] => none
  | c :: args => some (c, args)

/-! ### Spec-side predicates, for comparison with the code

These follow the words of the specification, not the source, and exist only to
be compared with the definitions above. -/

/-- Modelled from the spec: "value is exactly 10 ASCII digit characters"
(ASCII digits are the code points 48-57). -/
def specAsciiPhone (s : String) : Bool :=
  s.toList.length == 10 && s.toList.all (fun c => 48 ≤ c.toNat && c.toNat ≤ 57)

/-- ASCII digit run, used by the spec-side birthday predicates. -/
def asciiDigits (l : List Char) : Bool :=
  l.all (fun c => 48 ≤ c.toNat && c.toNat ≤ 57)

/-- Numeric value of an ASCII digit run. -/
def natOfAscii (l : List Char) : Nat :=
  l.foldl (fun n c => 10 * n + (c.toNat - 48)) 0

/-- Modelled from the spec: the strict pattern "two-digit day, dot, two-digit
month, dot, four-digit year" that "denotes a real calendar date". -/
def specStrictBirthday (s : String) : Bool :=
  match s.toList with
  | [d1, d2, dot1, m1, m2, dot2, y1, y2, y3, y4] =>
      dot1.toNat == 46 && dot2.toNat == 46 &&
      asciiDigits [d1, d2, m1, m2, y1, y2, y3, y4] &&
      (let d := natOfAscii [d1, d2]
       let m := natOfAscii [m1, m2]
       let y := natOfAscii [y1, y2, y3, y4]
       1 ≤ y && 1 ≤ m && m ≤ 12 && 1 ≤ d && d ≤ daysInMonth y m)
  | _ => false

/-- The amended reading of the birthday format: day and month of one or two
ASCII digits, a four-ASCII-digit year, separated by dots, denoting a real
calendar date. -/
def specLenientBirthday (s : String) : Bool :=
  match pySplitDots s.toList with
  | [ds, ms, ys] =>
      (1 ≤ ds.length && ds.length ≤ 2 && asciiDigits ds) &&
      (1 ≤ ms.length && ms.length ≤ 2 && asciiDigits ms) &&
      (ys.length == 4 && asciiDigits ys) &&
      (let d := natOfAscii ds
       let m := natOfAscii ms
       let y := natOfAscii ys
       1 ≤ y && 1 ≤ m && m ≤ 12 && 1 ≤ d && d ≤ daysInMonth y m)
  | _ => false

/-! ### Concrete reachable books used by the closed theorems below -/

/-- One contact, added through the command layer, whose birthday 08.06.1990
falls on Saturday 2024-06-08 when mapped into 2024. -/
def bookSat : Book :=
  (add_birthdayCmd (addCmd [] "Alice" "1234567890").1 "Alice" "08.06.1990").1

/-- Two contacts: the birthday of Ann maps to 2024-06-03 (inside the 7-day
window of 2024-06-01), that of Bob to 2024-06-10 (outside it). -/
def bookWin : Book :=
  (add_birthdayCmd
    (add_birthdayCmd
      (addCmd (addCmd [] "Ann" "1111111111").1 "Bob" "2222222222").1
      "Ann" "03.06.1990").1
    "Bob" "10.06.1990").1

/-- One contact whose stored birthday is 29 February of a leap year. -/
def bookFeb29 : Book :=
  (add_birthdayCmd (addCmd [] "John" "1234567890").1 "John" "29.02.2024").1

/-- One contact named John, used for the duplicate-add witness. -/
def bookJohn : Book :=
  (addCmd [] "John" "1234567890").1

/-! ## Helper lemmas -/

theorem lookup_eq_none_iff (l : Book) (name : String) :
    l.lookup name = none ↔ ∀ p ∈ l, p.1 ≠ name := by
  induction l with
  | nil => simp
  | cons a l ih =>
      obtain ⟨k, v⟩ := a
      by_cases hk : name = k
      · subst hk
        simp [List.lookup]
      · simp only [List.lookup, beq_eq_false_iff_ne.mpr hk, List.mem_cons]
        constructor
        · rintro h p (rfl | hp)
          · exact fun hcon => hk hcon.symm
          · exact (ih.mp h) p hp
        · intro h
          exact ih.mpr fun p hp => h p (Or.inr hp)

theorem lookup_append_keys_ne (l1 l2 : Book) (name : String) (r : Record)
    (h1 : ∀ p ∈ l1, p.1 ≠ name) :
    (l1 ++ (name, r) :: l2).lookup name = some r := by
  induction l1 with
  | nil => simp [List.lookup]
  | cons a l1 ih =>
      obtain ⟨k, v⟩ := a
      have hk : k ≠ name := h1 (k, v) (List.mem_cons_self _ _)
      simp only [List.cons_append, List.lookup, beq_eq_false_iff_ne.mpr (Ne.symm hk)]
      exact ih fun p hp => h1 p (List.mem_cons_of_mem _ hp)

/-! ## Claim theorems -/

/-- C1: the claim says a contact whose birthday maps to a Saturday inside the
7-day window is included with the greeting date moved to the following
Monday.  The code does the opposite: on `bookSat` (reachable through the
`add` and `add-birthday` commands) the candidate date 2024-06-08 is a
Saturday (`isoweekday = 6`) lying 5 days after the reference date
2024-06-03, yet the query returns the empty list — the shift amounts on
line 93 are swapped (`+1` for Saturday reaches Sunday, `+2` for Sunday
reaches Tuesday), so the `weekday() == 0` test never succeeds and weekend
birthdays are dropped; no displayed date is ever shifted. -/
theorem C1_saturday_birthday_dropped :
    (addCmd [] "Alice" "1234567890").2 = "Contact added." ∧
    (add_birthdayCmd (addCmd [] "Alice" "1234567890").1 "Alice" "08.06.1990").2
      = "Birthday added." ∧
    candidateOfBirthday 2024 "08.06.1990" = some ⟨2024, 6, 8⟩ ∧
    isoweekday ⟨2024, 6, 8⟩ = 6 ∧
    (pyToOrdinal ⟨2024, 6, 8⟩ : Int) - (pyToOrdinal ⟨2024, 6, 3⟩ : Int) = 5 ∧
    get_upcoming_birthdays ⟨2024, 6, 3⟩ bookSat = some [] := by
  decide

/-- C2: a record the query includes always has its candidate date inside the
half-open window `[reference_date, reference_date + 7 days)`, and on the
concrete reference date 2024-06-01 the contact with birthday "03.06.1990"
is included while the contact with birthday "10.06.1990" is excluded. -/
theorem C2_half_open_window :
    (∀ tdate bdate : PyDate, qualifies tdate bdate = true →
        0 ≤ (pyToOrdinal bdate : Int) - (pyToOrdinal tdate : Int) ∧
        (pyToOrdinal bdate : Int) - (pyToOrdinal tdate : Int) < 7) ∧
    get_upcoming_birthdays ⟨2024, 6, 1⟩ bookWin = some ["Ann 03 June"] := by
  constructor
  · intro tdate bdate h
    simp only [qualifies, Bool.and_eq_true, decide_eq_true_eq] at h
    exact ⟨h.1.1, h.1.2⟩
  · decide

/-- Witness for C2: reference date 2024-06-01 and candidate 2024-06-03
satisfy the window bounds via `C2_half_open_window`. -/
theorem C2_half_open_window_witness :
    0 ≤ (pyToOrdinal ⟨2024, 6, 3⟩ : Int) - (pyToOrdinal ⟨2024, 6, 1⟩ : Int) ∧
    (pyToOrdinal ⟨2024, 6, 3⟩ : Int) - (pyToOrdinal ⟨2024, 6, 1⟩ : Int) < 7 :=
  C2_half_open_window.1 ⟨2024, 6, 1⟩ ⟨2024, 6, 3⟩ (by decide)

/-- C6: when a record already exists under `name`, the `add` command reports
"Contact with this name already exists." and returns the book unchanged —
in particular the existing record and every other entry are untouched. -/
theorem C6_duplicate_add_rejected (book : Book) (name phone : String) (r : Record)
    (h : find book name = some r) :
    addCmd book name phone = (book, "Contact with this name already exists.") := by
  unfold addCmd
  rw [h]

/-- Witness for C6: adding "John" twice leaves his record (phone
"1234567890") and the book unchanged. -/
theorem C6_duplicate_add_rejected_witness :
    addCmd bookJohn "John" "0000000000"
      = (bookJohn, "Contact with this name already exists.") :=
  C6_duplicate_add_rejected bookJohn "John" "0000000000"
    ⟨"John", ["1234567890"], none⟩ (by decide)

/-- C7: deleting an absent name reports "not found" and returns the very same
book (same keys, records and size); deleting a present name removes exactly
that entry, keeping every other entry in order. -/
theorem C7_delete_contact_exact (book : Book) (name : String) :
    (find book name = none → delete_contact book name = (book, notFoundMsg name)) ∧
    (∀ (l1 l2 : List (String × Record)) (r : Record),
        book = l1 ++ (name, r) :: l2 →
        (∀ p ∈ l1, p.1 ≠ name) → (∀ p ∈ l2, p.1 ≠ name) →
        delete_contact book name = (l1 ++ l2, deletedMsg name)) := by
  constructor
  · intro h
    unfold find at h
    simp [delete_contact, h]
  · rintro l1 l2 r rfl h1 h2
    have hl := lookup_append_keys_ne l1 l2 name r h1
    have hf1 : l1.filter (fun p => !(p.1 == name)) = l1 :=
      List.filter_eq_self.mpr fun p hp => by simp [h1 p hp]
    have hf2 : l2.filter (fun p => !(p.1 == name)) = l2 :=
      List.filter_eq_self.mpr fun p hp => by simp [h2 p hp]
    simp [delete_contact, hl, List.filter_append, List.filter_cons, hf1, hf2]

/-- Witness for C7: on the one-contact book `[("A", ...)]`, deleting "B"
reports not-found and changes nothing, deleting "A" empties the book. -/
theorem C7_delete_contact_exact_witness :
    delete_contact [("A", Record.mk "A" [] none)] "B"
      = ([("A", Record.mk "A" [] none)], notFoundMsg "B") ∧
    delete_contact [("A", Record.mk "A" [] none)] "A" = ([], deletedMsg "A") := by
  constructor
  · exact (C7_delete_contact_exact [("A", Record.mk "A" [] none)] "B").1 (by decide)
  · have h := (C7_delete_contact_exact [("A", Record.mk "A" [] none)] "A").2
      [] [] (Record.mk "A" [] none) rfl (by simp) (by simp)
    simpa using h

/-- C9: the `add` command is not atomic.  For a fresh (valid) name and an
invalid phone string the record is inserted before phone validation fails,
so after the printed error the book contains a record under that name with
an empty phone list. -/
theorem C9_add_not_atomic (book : Book) (name phone : String)
    (h1 : find book name = none) (h2 : nameOk name = true) (h3 : phoneOk phone = false) :
    addCmd book name phone = (book ++ [(name, ⟨name, [], none⟩)], invalidPhoneMsg) ∧
    find (addCmd book name phone).1 name = some ⟨name, [], none⟩ := by
  unfold find at h1
  have hmain : addCmd book name phone
      = (book ++ [(name, ⟨name, [], none⟩)], invalidPhoneMsg) := by
    unfold addCmd find
    rw [h1]
    simp [h2, h3, add_record, h1]
  refine ⟨hmain, ?_⟩
  unfold find
  rw [hmain]
  exact lookup_append_keys_ne book [] name ⟨name, [], none⟩
    ((lookup_eq_none_iff book name).mp h1)

/-- Witness for C9: `add Kim 12345` on the empty book prints the phone error
yet leaves a phoneless record for Kim in the book. -/
theorem C9_add_not_atomic_witness :
    addCmd [] "Kim" "12345" = ([("Kim", ⟨"Kim", [], none⟩)], invalidPhoneMsg) ∧
    find (addCmd [] "Kim" "12345").1 "Kim" = some ⟨"Kim", [], none⟩ := by
  have h := C9_add_not_atomic [] "Kim" "12345" (by decide) (by decide) (by decide)
  simpa using h

theorem replaceFirst_at_first_match (old new : String) (phones : List String)
    (i : Nat) (hi : i < phones.length) (hget : phones.get ⟨i, hi⟩ = old)
    (hbefore : ∀ j (hj : j < i), phones.get ⟨j, Nat.lt_trans hj hi⟩ ≠ old) :
    replaceFirst old new phones = some (phones.set i new) := by
  induction phones generalizing i with
  | nil => exact absurd hi (Nat.not_lt_zero i)
  | cons p ps ih =>
      cases i with
      | zero =>
          simp only [List.get] at hget
          simp [replaceFirst, hget]
      | succ j =>
          have hp : p ≠ old := by
            have := hbefore 0 (Nat.succ_pos j)
            simpa using this
          have hrec := ih j (Nat.lt_of_succ_lt_succ hi) (by simpa using hget)
            (fun k hk => by
              have := hbefore (k + 1) (Nat.succ_lt_succ hk)
              simpa using this)
          simp [replaceFirst, hp, hrec, List.set]

theorem replaceFirst_of_not_mem (old new : String) (phones : List String)
    (h : old ∉ phones) : replaceFirst old new phones = none := by
  induction phones with
  | nil => rfl
  | cons p ps ih =>
      have hp : p ≠ old := fun hcon => h (hcon ▸ List.mem_cons_self p ps)
      have hps : old ∉ ps := fun hcon => h (List.mem_cons_of_mem p hcon)
      simp [replaceFirst, hp, ih hps]

/-- C5: with a valid 10-digit `new`, `edit_phone` rewrites exactly the first
phone equal to `old` in place (`List.set` at the first matching index, which
leaves every other entry — later duplicates included — unchanged), and when
no phone equals `old` it fails with "Phone number not found." leaving the
list untouched (the returned value is an error, no list is produced). -/
theorem C5_edit_phone_first_match (phones : List String) (old new : String)
    (hnew : phoneOk new = true) :
    (∀ i (hi : i < phones.length), phones.get ⟨i, hi⟩ = old →
        (∀ j (hj : j < i), phones.get ⟨j, Nat.lt_trans hj hi⟩ ≠ old) →
        edit_phone phones old new = .ok (phones.set i new)) ∧
    (old ∉ phones → edit_phone phones old new = .error "Phone number not found.") := by
  have hv : pyIsDigitString new = true ∧ new.length = 10 := by
    simpa [phoneOk] using hnew
  constructor
  · intro i hi hget hbefore
    simp [edit_phone, hv.1, hv.2, replaceFirst_at_first_match old new phones i hi hget hbefore]
  · intro h
    simp [edit_phone, hv.1, hv.2, replaceFirst_of_not_mem old new phones h]

/-- Witness for C5: on `["1111111111"]`, editing "1111111111" to
"2222222222" yields `["2222222222"]`, and editing a non-member fails with
"Phone number not found.". -/
theorem C5_edit_phone_first_match_witness :
    edit_phone ["1111111111"] "1111111111" "2222222222" = .ok ["2222222222"] ∧
    edit_phone ["1111111111"] "9999999999" "2222222222"
      = .error "Phone number not found." := by
  constructor
  · have h := (C5_edit_phone_first_match ["1111111111"] "1111111111" "2222222222"
      (by decide)).1 0 (by decide) (by decide)
      (fun j hj => absurd hj (Nat.not_lt_zero j))
    simpa using h
  · exact (C5_edit_phone_first_match ["1111111111"] "9999999999" "2222222222"
      (by decide)).2 (by decide)

theorem splitWsGo_ne_nil_of_acc (l : List Char) (acc : List Char) (h : acc ≠ []) :
    splitWsGo acc l ≠ [] := by
  induction l generalizing acc with
  | nil => simp [splitWsGo, List.isEmpty_iff, h]
  | cons c cs ih =>
      by_cases hc : pyIsSpace c
      · simp only [splitWsGo, hc, if_true, List.isEmpty_iff, h, if_false]
        exact List.cons_ne_nil _ _
      · simp only [splitWsGo, hc, if_false]
        exact ih (c :: acc) (List.cons_ne_nil c acc)

theorem splitWsGo_ne_nil_of_mem (l : List Char) (c : Char) (hc : c ∈ l)
    (hw : pyIsSpace c = false) : ∀ acc, splitWsGo acc l ≠ [] := by
  induction l with
  | nil => exact absurd hc (List.not_mem_nil c)
  | cons a as ih =>
      intro acc
      by_cases ha : pyIsSpace a
      · have hcas : c ∈ as := by
          rcases List.mem_cons.mp hc with rfl | h
          · exact absurd ha (by simp [hw])
          · exact h
        by_cases hacc : acc.isEmpty
        · simpa [splitWsGo, ha, hacc] using ih hcas []
        · simp [splitWsGo, ha, hacc]
      · simp only [splitWsGo, ha, if_false]
        exact splitWsGo_ne_nil_of_acc as (a :: acc) (List.cons_ne_nil a acc)

theorem splitWsGo_nil_of_all_ws (l : List Char) (h : ∀ c ∈ l, pyIsSpace c = true) :
    splitWsGo [] l = [] := by
  induction l with
  | nil => rfl
  | cons a as ih =>
      have ha := h a (List.mem_cons_self a as)
      simp only [splitWsGo, ha, if_true, List.isEmpty_nil]
      exact ih fun c hcas => h c (List.mem_cons_of_mem a hcas)

/-- C8 counterexample: the claim says every non-empty line keeps the loop
going, but the whitespace-only line `" "` is non-empty and still tokenizes
to the empty list, so `user_input[0]` raises `IndexError` (modelled by
`none`) exactly as on the empty line. -/
theorem C8_nonempty_line_counterexample :
    (" " : String) ≠ "" ∧ commandStep " " = none := by
  decide

/-- C8 amended: the tokenization-and-dispatch step fails with an
index-out-of-range exactly on the lines whose characters are all whitespace
— the empty line among them — and produces a command token (the loop
continues) on every line containing a non-whitespace character. -/
theorem C8_empty_split_crashes (line : String) :
    commandStep line = none ↔ ∀ c ∈ line.toList, pyIsSpace c = true := by
  constructor
  · intro h
    by_contra hcon
    push_neg at hcon
    obtain ⟨c, hc, hw⟩ := hcon
    have hne := splitWsGo_ne_nil_of_mem line.toList c hc
      (Bool.not_eq_true _ ▸ hw) []
    unfold commandStep pySplitWs at h
    rcases hsp : splitWsGo [] line.toList with _ | ⟨w, ws⟩
    · exact hne hsp
    · rw [hsp] at h
      simp at h
  · intro h
    unfold commandStep pySplitWs
    rw [splitWsGo_nil_of_all_ws line.toList h]
    rfl

/-- Witness for C8: the line "hello" does not crash the dispatch step. -/
theorem C8_empty_split_crashes_witness : ¬ commandStep "hello" = none := by
  intro hnone
  have h := (C8_empty_split_crashes "hello").mp hnone
  have := h "hello".toList.head! (by decide)
  simp [pyIsSpace] at this

/-- C10: a reachable book (built by `add` then `add-birthday John
29.02.2024`, both succeeding) makes the birthdays query raise instead of
returning a list when the reference year 2025 is not a leap year: building
the candidate date 2025-02-29 fails, and the `ValueError` propagates (the
`birthdays` branch of `main` has no handler), modelled by `none`. -/
theorem C10_feb29_raises :
    (addCmd [] "John" "1234567890").2 = "Contact added." ∧
    (add_birthdayCmd (addCmd [] "John" "1234567890").1 "John" "29.02.2024").2
      = "Birthday added." ∧
    isLeap 2025 = false ∧
    get_upcoming_birthdays ⟨2025, 3, 1⟩ bookFeb29 = none := by
  decide

/-! ## Lemmas about the character-level parsers -/

theorem pyIsDigitChar_ascii (c : Char) (h : c.toNat < 128) :
    pyIsDigitChar c = (decide (48 ≤ c.toNat) && decide (c.toNat ≤ 57)) := by
  have h2 : decide (1632 ≤ c.toNat) = false := by
    simp only [decide_eq_false_iff_not]
    omega
  simp [pyIsDigitChar, h2]

theorem daysInMonth_le_31 (y m : Nat) : daysInMonth y m ≤ 31 := by
  unfold daysInMonth
  split_ifs <;> omega

theorem foldl_parse_ascii (l : List Char) (h : ∀ c ∈ l, 48 ≤ c.toNat ∧ c.toNat ≤ 57) :
    ∀ n : Nat, l.foldl (fun n c => 10 * n + pyDigitVal c) n
      = l.foldl (fun n c => 10 * n + (c.toNat - 48)) n := by
  induction l with
  | nil => intro n; rfl
  | cons a l ih =>
      intro n
      have ha := h a (List.mem_cons_self a l)
      have hv : pyDigitVal a = a.toNat - 48 := by
        simp [pyDigitVal, ha.2]
      simp only [List.foldl_cons, hv]
      exact ih (fun c hc => h c (List.mem_cons_of_mem a hc)) _

theorem pyParseNat_ascii (l : List Char) (h : ∀ c ∈ l, 48 ≤ c.toNat ∧ c.toNat ≤ 57) :
    pyParseNat l = natOfAscii l :=
  foldl_parse_ascii l h 0

/-- Over ASCII characters the `%d` pattern accepts exactly the one- or
two-digit numerals whose value lies in 1..31. -/
theorem dayOk_ascii (l : List Char) (h : ∀ c ∈ l, c.toNat < 128) :
    dayOk l = true ↔
      (1 ≤ l.length ∧ l.length ≤ 2 ∧ asciiDigits l = true ∧
        1 ≤ natOfAscii l ∧ natOfAscii l ≤ 31) := by
  match l with
  | [] => simp [dayOk, asciiDigits, natOfAscii]
  | [a] =>
      have ha := h a (List.mem_cons_self a [])
      simp only [dayOk, asciiDigits, natOfAscii, List.all_cons, List.all_nil,
        List.foldl, List.length_cons, List.length_nil, Bool.and_true,
        Bool.and_eq_true, decide_eq_true_eq]
      omega
  | [a, b] =>
      have ha := h a (by simp)
      have hb := h b (by simp)
      simp only [dayOk, pyIsDigitChar, asciiDigits, natOfAscii, List.all_cons,
        List.all_nil, List.foldl, List.length_cons, List.length_nil,
        Bool.and_true, Bool.or_eq_true, Bool.and_eq_true, beq_iff_eq,
        decide_eq_true_eq]
      omega
  | a :: b :: c :: t =>
      have hfalse : dayOk (a :: b :: c :: t) = false := rfl
      simp [hfalse, List.length_cons]

/-- Over ASCII characters the `%m` pattern accepts exactly the one- or
two-digit numerals whose value lies in 1..12. -/
theorem monthOk_ascii (l : List Char) (h : ∀ c ∈ l, c.toNat < 128) :
    monthOk l = true ↔
      (1 ≤ l.length ∧ l.length ≤ 2 ∧ asciiDigits l = true ∧
        1 ≤ natOfAscii l ∧ natOfAscii l ≤ 12) := by
  match l with
  | [] => simp [monthOk, asciiDigits, natOfAscii]
  | [a] =>
      have ha := h a (List.mem_cons_self a [])
      simp only [monthOk, asciiDigits, natOfAscii, List.all_cons, List.all_nil,
        List.foldl, List.length_cons, List.length_nil, Bool.and_true,
        Bool.and_eq_true, decide_eq_true_eq]
      omega
  | [a, b] =>
      have ha := h a (by simp)
      have hb := h b (by simp)
      simp only [monthOk, asciiDigits, natOfAscii, List.all_cons, List.all_nil,
        List.foldl, List.length_cons, List.length_nil, Bool.and_true,
        Bool.or_eq_true, Bool.and_eq_true, beq_iff_eq, decide_eq_true_eq]
      omega
  | a :: b :: c :: t =>
      have hfalse : monthOk (a :: b :: c :: t) = false := rfl
      simp [hfalse, List.length_cons]

/-- Every character of a part produced by `pySplitDots` comes from the
accumulator or the input. -/
theorem mem_splitDotsGo (l : List Char) :
    ∀ (acc w : List Char), w ∈ splitDotsGo acc l → ∀ c ∈ w, c ∈ acc ∨ c ∈ l := by
  induction l with
  | nil =>
      intro acc w hw c hc
      simp only [splitDotsGo, List.mem_singleton] at hw
      subst hw
      exact Or.inl (List.mem_reverse.mp hc)
  | cons a as ih =>
      intro acc w hw c hc
      by_cases ha : a.toNat = 46
      · simp only [splitDotsGo, ha, beq_self_eq_true, if_true, List.mem_cons] at hw
        rcases hw with rfl | hw
        · exact Or.inl (List.mem_reverse.mp hc)
        · rcases ih [] w hw c hc with h | h
          · exact absurd h (List.not_mem_nil c)
          · exact Or.inr (List.mem_cons_of_mem a h)
      · have hbeq : (a.toNat == 46) = false := by
          simpa using ha
        simp only [splitDotsGo, hbeq, Bool.false_eq_true, if_false] at hw
        rcases ih (a :: acc) w hw c hc with h | h
        · rcases List.mem_cons.mp h with rfl | h2
          · exact Or.inr (List.mem_cons_self c as)
          · exact Or.inl h2
        · exact Or.inr (List.mem_cons_of_mem a h)

theorem isSome_ite_ite (A B : Bool) (v : Nat × Nat × Nat) :
    (if A then (if B then some v else none) else (none : Option (Nat × Nat × Nat))).isSome
      = true ↔ (A = true ∧ B = true) := by
  by_cases hA : A <;> by_cases hB : B <;> simp [hA, hB]

theorem asciiDigits_iff (l : List Char) :
    asciiDigits l = true ↔ ∀ c ∈ l, 48 ≤ c.toNat ∧ c.toNat ≤ 57 := by
  simp [asciiDigits, List.all_eq_true]

theorem yearOk_ascii (l : List Char) (h : ∀ c ∈ l, c.toNat < 128) :
    yearOk l = true ↔ (l.length = 4 ∧ asciiDigits l = true) := by
  simp only [yearOk, Bool.and_eq_true, beq_iff_eq, List.all_eq_true, asciiDigits_iff]
  constructor
  · rintro ⟨h4, hall⟩
    refine ⟨h4, fun c hc => ?_⟩
    have h2 := hall c hc
    rw [pyIsDigitChar_ascii c (h c hc)] at h2
    simpa using h2
  · rintro ⟨h4, hall⟩
    refine ⟨h4, fun c hc => ?_⟩
    rw [pyIsDigitChar_ascii c (h c hc)]
    simpa using hall c hc

/-- C3 counterexample: `Phone.__init__` accepts the ten Arabic-Indic digits
U+0660-U+0669 (Python `str.isdigit` is Unicode-aware), a string that is not
made of ASCII digits, so "succeeds iff exactly 10 ASCII digits" fails. -/
theorem C3_unicode_phone_counterexample :
    phoneOk "٠١٢٣٤٥٦٧٨٩" = true ∧ specAsciiPhone "٠١٢٣٤٥٦٧٨٩" = false := by
  decide

/-- C3 amended: every string of exactly 10 ASCII digits is accepted, and
restricted to ASCII strings the acceptance is exactly "10 ASCII digits";
the counterexample above shows only the extension to non-ASCII Unicode
digit strings. -/
theorem C3_phone_ascii_amended (s : String) :
    (specAsciiPhone s = true → phoneOk s = true) ∧
    ((∀ c ∈ s.toList, c.toNat < 128) → (phoneOk s = true ↔ specAsciiPhone s = true)) := by
  have hforward : specAsciiPhone s = true → phoneOk s = true := by
    intro h
    simp only [specAsciiPhone, Bool.and_eq_true, beq_iff_eq, List.all_eq_true,
      decide_eq_true_eq] at h
    obtain ⟨hlen, hall⟩ := h
    simp only [phoneOk, pyIsDigitString, Bool.and_eq_true, beq_iff_eq, List.all_eq_true]
    refine ⟨⟨?_, ?_⟩, hlen⟩
    · rcases hl : s.toList with _ | ⟨a, t⟩
      · rw [hl] at hlen
        simp at hlen
      · simp
    · intro c hc
      have hd := hall c hc
      simp only [pyIsDigitChar, Bool.or_eq_true, Bool.and_eq_true, decide_eq_true_eq]
      exact Or.inl hd
  refine ⟨hforward, fun hascii => ⟨fun h => ?_, hforward⟩⟩
  simp only [phoneOk, pyIsDigitString, Bool.and_eq_true, beq_iff_eq, List.all_eq_true] at h
  obtain ⟨⟨hne, hall⟩, hlen⟩ := h
  simp only [specAsciiPhone, Bool.and_eq_true, beq_iff_eq, List.all_eq_true,
    decide_eq_true_eq]
  refine ⟨hlen, fun c hc => ?_⟩
  have hd := hall c hc
  rw [pyIsDigitChar_ascii c (hascii c hc)] at hd
  simpa using hd

/-- Witness for the amended C3 at the concrete inputs "1234567890" (valid)
and "12345678" (ASCII, too short on both sides of the equivalence). -/
theorem C3_phone_ascii_amended_witness :
    phoneOk "1234567890" = true ∧
    (phoneOk "12345678" = true ↔ specAsciiPhone "12345678" = true) :=
  ⟨(C3_phone_ascii_amended "1234567890").1 (by decide),
   (C3_phone_ascii_amended "12345678").2 (by decide)⟩

/-- C4 counterexample: `Birthday.__init__` accepts "3.6.1990", which does
not match the strict two-digit-day, two-digit-month pattern (the CPython
`%d`/`%m` patterns also match single digits); and the raised message is
"Invalid date format. Please use DD.MM.YYYY.", not
"Invalid date format. Use DD.MM.YYYY". -/
theorem C4_strict_pattern_counterexample :
    birthdayOk "3.6.1990" = true ∧ specStrictBirthday "3.6.1990" = false ∧
    specStrictBirthday "03.06.1990" = true ∧
    invalidDateMsg ≠ "Invalid date format. Use DD.MM.YYYY" := by
  decide

/-- C4 amended: over ASCII strings, `Birthday.__init__` succeeds exactly on
day.month.year forms with a one- or two-digit day, a one- or two-digit
month and a four-digit year denoting a real calendar date (year at least
one); equivalent non-ASCII Unicode digit strings are additionally accepted. -/
theorem C4_birthday_lenient_ascii (s : String) (hascii : ∀ c ∈ s.toList, c.toNat < 128) :
    birthdayOk s = true ↔ specLenientBirthday s = true := by
  unfold birthdayOk pyStrptimeDMY specLenientBirthday
  cases hsp : pySplitDots s.toList with
  | nil => simp
  | cons ds tl1 =>
    cases tl1 with
    | nil => simp
    | cons ms tl2 =>
      cases tl2 with
      | nil => simp
      | cons ys tl3 =>
        cases tl3 with
        | cons e t => simp
        | nil =>
          have hpart : ∀ (w : List Char), w ∈ pySplitDots s.toList →
              ∀ c ∈ w, c.toNat < 128 := by
            intro w hw c hc
            rcases mem_splitDotsGo s.toList [] w hw c hc with h | h
            · exact absurd h (List.not_mem_nil c)
            · exact hascii c h
          have hds : ∀ c ∈ ds, c.toNat < 128 := hpart ds (by rw [hsp]; simp)
          have hms : ∀ c ∈ ms, c.toNat < 128 := hpart ms (by rw [hsp]; simp)
          have hys : ∀ c ∈ ys, c.toNat < 128 := hpart ys (by rw [hsp]; simp)
          simp only [isSome_ite_ite]
          simp only [Bool.and_eq_true, decide_eq_true_eq, beq_iff_eq]
          rw [dayOk_ascii ds hds, monthOk_ascii ms hms, yearOk_ascii ys hys]
          simp only [and_assoc]
          constructor
          · rintro ⟨h1, h2, h3, h4, h5, h6, h7, h8, h9, h10, h11, h12, h13, h14⟩
            have hpd := pyParseNat_ascii ds ((asciiDigits_iff ds).mp h3)
            have hpm := pyParseNat_ascii ms ((asciiDigits_iff ms).mp h8)
            have hpy := pyParseNat_ascii ys ((asciiDigits_iff ys).mp h12)
            rw [hpy] at h13
            rw [hpd, hpm, hpy] at h14
            exact ⟨h1, h2, h3, h6, h7, h8, h11, h12, h13, h9, h10, h4, h14⟩
          · rintro ⟨h1, h2, h3, h4, h5, h6, h7, h8, h9, h10, h11, h12, h13⟩
            have hpd := pyParseNat_ascii ds ((asciiDigits_iff ds).mp h3)
            have hpm := pyParseNat_ascii ms ((asciiDigits_iff ms).mp h6)
            have hpy := pyParseNat_ascii ys ((asciiDigits_iff ys).mp h8)
            have h31 := daysInMonth_le_31 (natOfAscii ys) (natOfAscii ms)
            refine ⟨h1, h2, h3, h12, ?_, h4, h5, h6, h10, h11, h7, h8, ?_, ?_⟩
            · omega
            · rw [hpy]; exact h9
            · rw [hpd, hpm, hpy]; exact h13

/-- Witness for the amended C4 at the concrete ASCII inputs "01.01.2024"
(accepted) and "29.02.2023" (rejected, 2023 is not a leap year). -/
theorem C4_birthday_lenient_ascii_witness :
    birthdayOk "01.01.2024" = true ∧ ¬ birthdayOk "29.02.2023" = true :=
  ⟨(C4_birthday_lenient_ascii "01.01.2024" (by decide)).mpr (by decide),
   fun h => by
    have h2 := (C4_birthday_lenient_ascii "29.02.2023" (by decide)).mp h
    exact absurd h2 (by decide)⟩

end Task1
